import Mathlib

/-!
# Verification of the invpanel-pro recommendation / simulator core

Shallow embedding of the core logic of the `invpanel-pro` repository:

* `core/reco_engine.py` — holdings snapshot, rule-based recommendation
  generator (`build_recos`), safe persistence (`_create_reco_safe`,
  `generate_recommendations`);
* `core/views.py` — recommendation lifecycle / AI-governance gate
  (`opportunities`, `opportunities_db`) and the training simulator trade
  handler (`sim_detail`);
* `core/ai_engine.py` — the AI evaluation adapter
  (`evaluate_recommendation`);
* `core/price_engine.py` — the deterministic price generator (`price_for`).

Conventions: Python `Decimal` values are embedded as `ℚ` (all the
arithmetic involved is exact); Django rows become structures; the
database becomes explicit lists of rows threaded through the operations.
External collaborators (the OpenAI client, `hashlib.sha256`, `math.exp`,
`math.sqrt`, `json.loads`) are modelled as parameters, so every theorem
holds for every possible behaviour of the collaborator.  Free-text
fields (titles, rationales, evidence payloads) that no claim inspects
are elided from the row structures.
-/

namespace InvPanel

/-! ## String helpers

Python's `str.upper()`, `str.strip()` and slicing `s[:n]` are embedded
by structurally recursive functions over the character list (the
standard `String.toUpper`/`trim`/`take` are extensionally the same on
the ASCII data involved but are defined by well-founded recursion,
which the kernel cannot evaluate inside `decide`). -/

/-- Python `str.upper()` (ASCII, via `Char.toUpper`). -/
def pyUpper (s : String) : String := ⟨s.data.map Char.toUpper⟩

/-- Python `str.strip()`: drop whitespace from both ends. -/
def pyStrip (s : String) : String :=
  ⟨((s.data.dropWhile Char.isWhitespace).reverse.dropWhile
      Char.isWhitespace).reverse⟩

/-- Python slicing `s[:n]`. -/
def pyTake (s : String) (n : Nat) : String := ⟨s.data.take n⟩

/-! ## Core enumerations (`core/models.py`, `Recommendation.Severity` /
`Recommendation.Status`) -/

/-- `Recommendation.Severity` of `core/models.py`. -/
inductive Severity
  | LOW
  | MED
  | HIGH
deriving DecidableEq, Repr

/-- `Recommendation.Status` of `core/models.py`. -/
inductive RecoStatus
  | OPEN
  | ACCEPTED
  | IGNORED
deriving DecidableEq, Repr

/-! ## Recommendation store and safe creation (`core/reco_engine.py`) -/

/-- The slice of a `Recommendation` row relevant to persistence and
deduplication: portfolio id, rule code, severity, status.  (Title,
rationale and evidence are free text that no persistence decision
reads.) -/
structure RecoRow where
  portfolio : Nat
  code : String
  severity : Severity
  status : RecoStatus
deriving DecidableEq, Repr

/-- The persistent store of `Recommendation` rows. -/
abbrev RecoStore := List RecoRow

/-- The query
`Recommendation.objects.filter(portfolio=…, code=…, status=OPEN).exists()`
performed by `_create_reco_safe`. -/
def existsOpen (store : RecoStore) (pf : Nat) (code : String) : Bool :=
  store.any fun r =>
    r.portfolio == pf && r.code == code && r.status == RecoStatus.OPEN

/-- `_create_reco_safe` (`core/reco_engine.py`): if an OPEN row with the
same `(portfolio, code)` exists, skip (`created = false`, store
unchanged); otherwise create the row.  The `IntegrityError` /
`Exception` catch branches also return `(None, False)` without touching
the store, so the embedding covers them by the skip case. -/
def createRecoSafe (store : RecoStore) (pf : Nat) (code : String)
    (severity : Severity) (status : RecoStatus) : RecoStore × Bool :=
  if existsOpen store pf code then (store, false)
  else (⟨pf, code, severity, status⟩ :: store, true)

/-- The `code`/`severity` pair of a candidate finding (`RecoDef` in
`core/reco_engine.py`; title/rationale/evidence elided). -/
structure RecoDef where
  code : String
  severity : Severity
deriving DecidableEq, Repr

/-- The persistence loop of `generate_recommendations`: fold
`_create_reco_safe` with `status=OPEN` over the candidate list, counting
successful creations. -/
def persistRecos (store : RecoStore) (pf : Nat) (ds : List RecoDef) :
    RecoStore × Nat :=
  ds.foldl
    (fun acc d =>
      let r := createRecoSafe acc.1 pf d.code d.severity RecoStatus.OPEN
      (r.1, if r.2 then acc.2 + 1 else acc.2))
    (store, 0)

/-- One recommendation-engine operation against the store: either a
single `_create_reco_safe` call or a whole `generate_recommendations`
batch. -/
inductive RecoOp
  | create (pf : Nat) (code : String) (severity : Severity) (status : RecoStatus)
  | generate (pf : Nat) (ds : List RecoDef)

/-- Apply one operation to the store. -/
def applyRecoOp (store : RecoStore) : RecoOp → RecoStore
  | RecoOp.create pf code sev st => (createRecoSafe store pf code sev st).1
  | RecoOp.generate pf ds => (persistRecos store pf ds).1

/-- Apply a sequence of recommendation-engine operations. -/
def applyRecoOps (store : RecoStore) (ops : List RecoOp) : RecoStore :=
  ops.foldl applyRecoOp store

/-- Dedup invariant: no two distinct rows of the store are both OPEN
with the same `(portfolio, code)`. -/
def atMostOneOpen (store : RecoStore) : Prop :=
  store.Pairwise fun a b =>
    ¬(a.status = RecoStatus.OPEN ∧ b.status = RecoStatus.OPEN ∧
      a.portfolio = b.portfolio ∧ a.code = b.code)

instance (store : RecoStore) : Decidable (atMostOneOpen store) := by
  unfold atMostOneOpen
  exact List.instDecidablePairwise store

/-! ## Holdings snapshot (`_holdings_snapshot`, `core/reco_engine.py`) -/

/-- The slice of a `Transaction` row the snapshot reads: the referenced
asset's symbol, the transaction type string, and the quantity.  The
snapshot consumes the 800 most recent transactions of the portfolio;
the embedding takes that already-windowed list as input. -/
structure Tx where
  symbol : String
  txType : String
  quantity : ℚ
deriving DecidableEq, Repr

/-- Update an insertion-ordered association list at a key, Python-dict
style: an existing key keeps its position, a new key is appended. -/
def updateAssoc (m : List (String × ℚ)) (k : String) (f : ℚ → ℚ) :
    List (String × ℚ) :=
  match m with
  | [] => [(k, f 0)]
  | (k', v) :: rest =>
      if k' = k then (k', f v) :: rest else (k', v) :: updateAssoc rest k f

/-- The accumulation loop of `_holdings_snapshot`:
`sym = (t.asset.symbol or "UNK").upper().strip()`; BUY adds the
quantity, SELL subtracts it, other types are ignored. -/
def holdingsFold (txs : List Tx) : List (String × ℚ) :=
  txs.foldl
    (fun m t =>
      let sym := pyStrip (pyUpper (if t.symbol = "" then "UNK" else t.symbol))
      if t.txType = "BUY" then updateAssoc m sym (· + t.quantity)
      else if t.txType = "SELL" then updateAssoc m sym (· - t.quantity)
      else m)
    []

/-- Result of `_holdings_snapshot`. -/
structure Snapshot where
  holdings : List (String × ℚ)
  txCount : Nat
  negative : List String
deriving Repr

/-- `_holdings_snapshot`: fold the transactions, then keep quantities
`> 1e-6` (insertion order preserved) and report the sorted set of
symbols with quantity `< -1e-6`. -/
def holdingsSnapshot (txs : List Tx) : Snapshot :=
  let raw := holdingsFold txs
  { holdings := raw.filter fun p => 1/1000000 < p.2
    txCount := txs.length
    negative :=
      ((raw.filter fun p => p.2 < -(1/1000000)).map Prod.fst).dedup.insertionSort
        (· ≤ ·) }

/-! ## Rule engine (`build_recos`, `core/reco_engine.py`) -/

/-- Latest-price information `_latest_prices` returns per symbol:
price date (embedded as a day ordinal), close, and the asset's
currency. -/
structure PriceInfo where
  date : Int
  close : ℚ
  currency : String
deriving DecidableEq, Repr

/-- Which `recos.append` site of `build_recos` produced a finding.
The site is recoverable from the code string's shape; the tag makes it
directly inspectable. -/
inductive RuleKind
  | dataNeg
  | setupEmpty
  | setupNoHold
  | pricesMissing
  | pricesAllMissing
  | concHigh
  | concMed
  | fx
  | pricesStale
  | cleanupSmall
deriving DecidableEq, Repr

/-- A candidate finding of `build_recos`: dedup code, severity and the
producing rule (title/rationale/evidence elided — no claim reads
them). -/
structure Finding where
  code : String
  severity : Severity
  kind : RuleKind
deriving DecidableEq, Repr

/-- Python's `max(xs, key=value)` over a nonempty association list:
first entry achieving the maximal value wins ties; the `("", 0)` result
for `[]` is never used (Python `max` raises there, and every call site
guards nonemptiness). -/
def maxByValue (l : List (String × ℚ)) : String × ℚ :=
  match l with
  | [] => ("", 0)
  | x :: xs => xs.foldl (fun best p => if best.2 < p.2 then p else best) x

/-- Valuation loop of `build_recos`: per-symbol value
`quantity × latest close` for the held symbols that have a price, in
holdings order. -/
def valuesOf (holdings : List (String × ℚ)) (prices : String → Option PriceInfo) :
    List (String × ℚ) :=
  holdings.filterMap fun p => (prices p.1).map fun pi => (p.1, p.2 * pi.close)

/-- `total` of `build_recos`: sum of the per-symbol values. -/
def totalOf (holdings : List (String × ℚ)) (prices : String → Option PriceInfo) : ℚ :=
  ((valuesOf holdings prices).map Prod.snd).sum

/-- `weights` of `build_recos`: `value / total` per symbol (the dict
comprehension's `if total > 0` guard included). -/
def weightsOf (holdings : List (String × ℚ)) (prices : String → Option PriceInfo) :
    List (String × ℚ) :=
  if 0 < totalOf holdings prices then
    (valuesOf holdings prices).map fun p => (p.1, p.2 / totalOf holdings prices)
  else []

/-- The stale-price list of the valuation loop: held, priced symbols
whose latest price is older than 14 days. -/
def staleOf (today : Int) (holdings : List (String × ℚ))
    (prices : String → Option PriceInfo) : List (String × Int) :=
  holdings.filterMap fun p =>
    (prices p.1).bind fun pi =>
      if 14 < today - pi.date then some (p.1, today - pi.date) else none

/-- Rule 3a of `build_recos` (concentration): `top_w ≥ 0.55` → one HIGH
finding, else `top_w ≥ 0.35` → one MED finding, else nothing. -/
def concRecos (pf : Nat) (holdings : List (String × ℚ))
    (prices : String → Option PriceInfo) : List Finding :=
  let w := weightsOf holdings prices
  let top := maxByValue w
  if 55/100 ≤ top.2 then
    [⟨s!"CONC-HIGH-{top.1}-{pf}", Severity.HIGH, RuleKind.concHigh⟩]
  else if 35/100 ≤ top.2 then
    [⟨s!"CONC-MED-{top.1}-{pf}", Severity.MED, RuleKind.concMed⟩]
  else []

/-- Rule 3b of `build_recos` (currency exposure): aggregate value by the
asset currency (`(currency or "?").upper()`), keep currencies other than
the portfolio base (`(base_currency or "ARS").upper()`), and if the
largest such exposure weighs `≥ 0.25` of total, one MED finding. -/
def fxRecos (pf : Nat) (baseCurrency : String) (holdings : List (String × ℚ))
    (prices : String → Option PriceInfo) : List Finding :=
  let values := valuesOf holdings prices
  let total := totalOf holdings prices
  let currencyValues := values.foldl
    (fun m p =>
      let cur := (match prices p.1 with
        | some pi => if pi.currency = "" then "?" else pi.currency
        | none => "?")
      let cur := pyUpper cur
      updateAssoc m cur (· + p.2))
    []
  let base := pyUpper (if baseCurrency = "" then "ARS" else baseCurrency)
  let other := currencyValues.filter fun p => p.1 ≠ "" ∧ p.1 ≠ base
  if other.isEmpty then []
  else
    let top := maxByValue other
    if 25/100 ≤ top.2 / total then
      [⟨s!"FX-{top.1}-{pf}", Severity.MED, RuleKind.fx⟩]
    else []

/-- Rule 3c of `build_recos` (stale prices): if any held symbol's price
is older than 14 days, one LOW finding. -/
def staleRecos (pf : Nat) (today : Int) (holdings : List (String × ℚ))
    (prices : String → Option PriceInfo) : List Finding :=
  if (staleOf today holdings prices).isEmpty then []
  else [⟨s!"PRICES-STALE-{pf}", Severity.LOW, RuleKind.pricesStale⟩]

/-- Rule 3d of `build_recos` (fragmentation): with `≥ 10` held symbols
of which `≥ 5` weigh `< 1%`, one LOW finding. -/
def smallRecos (pf : Nat) (holdings : List (String × ℚ))
    (prices : String → Option PriceInfo) : List Finding :=
  let small := (weightsOf holdings prices).filter fun p => p.2 < 1/100
  if 10 ≤ holdings.length ∧ 5 ≤ small.length then
    [⟨s!"CLEANUP-SMALL-{pf}", Severity.LOW, RuleKind.cleanupSmall⟩]
  else []

/-- `build_recos` (`core/reco_engine.py`): the ordered rule pipeline.
Inputs: portfolio id and base currency, today's date (day ordinal), the
windowed transaction list, and the latest-price lookup.  Mirrors the
source's appends in order, including the early return with the MED
"cannot value" finding when the valued total is `≤ 0`. -/
def buildRecos (pf : Nat) (baseCurrency : String) (today : Int)
    (txs : List Tx) (prices : String → Option PriceInfo) : List Finding :=
  let snap := holdingsSnapshot txs
  let holdings := snap.holdings
  let txCount := snap.txCount
  let negatives := snap.negative
  let r0 : List Finding :=
    match negatives with
    | [] => []
    | sym :: _ => [⟨s!"DATA-NEG-{sym}-{pf}", Severity.HIGH, RuleKind.dataNeg⟩]
  let r1 : List Finding :=
    if txCount = 0 then [⟨s!"SETUP-EMPTY-{pf}", Severity.MED, RuleKind.setupEmpty⟩]
    else []
  let r2 : List Finding :=
    if 0 < txCount ∧ holdings.isEmpty then
      [⟨s!"SETUP-NOHOLD-{pf}", Severity.LOW, RuleKind.setupNoHold⟩]
    else []
  let r3 : List Finding :=
    if holdings.isEmpty then []
    else
      let symbols := (holdings.map Prod.fst).insertionSort (· ≤ ·)
      let missing := symbols.filter fun s => (prices s).isNone
      let rMiss : List Finding :=
        if missing.isEmpty then []
        else [⟨s!"PRICES-MISSING-{pf}", Severity.MED, RuleKind.pricesMissing⟩]
      if totalOf holdings prices ≤ 0 then
        rMiss ++ [⟨s!"PRICES-ALLMISSING-{pf}", Severity.MED, RuleKind.pricesAllMissing⟩]
      else
        rMiss ++ concRecos pf holdings prices ++
          fxRecos pf baseCurrency holdings prices ++
          staleRecos pf today holdings prices ++
          smallRecos pf holdings prices
  r0 ++ r1 ++ r2 ++ r3

/-- The concentration findings (rule 3a) among a rule run's output. -/
def concFindings (l : List Finding) : List Finding :=
  l.filter fun f => f.kind = RuleKind.concHigh ∨ f.kind = RuleKind.concMed

/-- The "cannot value" findings among a rule run's output. -/
def allMissingFindings (l : List Finding) : List Finding :=
  l.filter fun f => f.kind = RuleKind.pricesAllMissing

/-- The findings of the rules that run only after a successful
valuation: concentration, currency exposure, stale prices,
fragmentation. -/
def lateFindings (l : List Finding) : List Finding :=
  l.filter fun f =>
    f.kind = RuleKind.concHigh ∨ f.kind = RuleKind.concMed ∨
    f.kind = RuleKind.fx ∨ f.kind = RuleKind.pricesStale ∨
    f.kind = RuleKind.cleanupSmall

/-- A concrete two-symbol portfolio (55 and 45 units) used to exercise
the rule engine on explicit data. -/
def txsPair : List Tx := [⟨"AAPL", "BUY", 55⟩, ⟨"MSFT", "BUY", 45⟩]

/-- A price table valuing both symbols of `txsPair` at 1 USD. -/
def pricesPair : String → Option PriceInfo := fun s =>
  if s = "AAPL" then some ⟨0, 1, "USD"⟩
  else if s = "MSFT" then some ⟨0, 1, "USD"⟩ else none

/-- A concrete one-symbol portfolio used to exercise the rule engine. -/
def txsSingle : List Tx := [⟨"AAPL", "BUY", 5⟩]

/-- The empty price table: no symbol has a price. -/
def pricesNone : String → Option PriceInfo := fun _ => none

/-! ## Recommendation lifecycle / governance gate
(`opportunities` and `opportunities_db`, `core/views.py`) -/

/-- The configuration the accept handler reads
(`invpanel/settings.py`): `AI_GOVERNANCE_REQUIRED` (default on),
`OPENAI_API_KEY` (empty string = unset), `AI_MIN_SCORE` (default 70),
`AI_ALLOW_MANUAL_OVERRIDE` (default off). -/
structure GovConfig where
  aiGovernanceRequired : Bool
  openaiApiKey : String
  aiMinScore : Int
  aiAllowManualOverride : Bool
deriving DecidableEq, Repr

/-- The fields of a `Recommendation` row the lifecycle handlers read
and write: status, decision note, and the AI governance fields. -/
structure RecRecord where
  status : RecoStatus
  decisionNote : String
  aiAction : String
  aiScore : Option Int
deriving DecidableEq, Repr

/-- The governance test of the accept branch: with governance required
and an API key configured, the accept is blocked when
`(ai_action or "").upper() != "ENTER"` or `ai_score` is null or below
`AI_MIN_SCORE`, unless `AI_ALLOW_MANUAL_OVERRIDE` is set. -/
def govBlocked (cfg : GovConfig) (rec : RecRecord) : Bool :=
  if cfg.aiGovernanceRequired && cfg.openaiApiKey != "" then
    let actionOk := pyUpper rec.aiAction == "ENTER"
    let scoreOk := match rec.aiScore with
      | some s => decide (cfg.aiMinScore ≤ s)
      | none => false
    (!actionOk || !scoreOk) && !cfg.aiAllowManualOverride
  else false

/-- Attach the optional decision note:
`note = (request.POST.get("note") or "").strip()`; if nonempty,
`rec.decision_note = note[:240]`. -/
def applyNote (rec : RecRecord) (note : String) : RecRecord :=
  let n := pyStrip note
  if n = "" then rec else { rec with decisionNote := pyTake n 240 }

/-- A lifecycle request: the three POST actions of `opportunities_db`
(`opportunities` offers `accept` and `ignore` on the same logic). -/
inductive LifecycleAction
  | accept
  | ignore
  | reopen
deriving DecidableEq, Repr

/-- One lifecycle POST handled for a record: `accept` (`"send"` /
`"accept"`) runs the governance gate and on pass sets ACCEPTED;
`ignore` unconditionally sets IGNORED; `reopen` unconditionally sets
OPEN.  A blocked accept leaves the record untouched.  None of the
branches consults the record's current status. -/
def lifecycleStep (cfg : GovConfig) (rec : RecRecord)
    (a : LifecycleAction) (note : String) : RecRecord :=
  match a with
  | LifecycleAction.accept =>
      if govBlocked cfg rec then rec
      else applyNote { rec with status := RecoStatus.ACCEPTED } note
  | LifecycleAction.ignore =>
      applyNote { rec with status := RecoStatus.IGNORED } note
  | LifecycleAction.reopen =>
      applyNote { rec with status := RecoStatus.OPEN } note

/-- A sequence of lifecycle requests applied to one record. -/
def runLifecycle (cfg : GovConfig) (rec : RecRecord)
    (reqs : List (LifecycleAction × String)) : RecRecord :=
  reqs.foldl (fun r q => lifecycleStep cfg r q.1 q.2) rec

/-! ## AI evaluation adapter (`evaluate_recommendation`,
`core/ai_engine.py`) -/

/-- The `AIEval` dataclass.  The `reasons` JSON object is embedded as a
string-keyed association list. -/
structure AIEval where
  score : Int
  confidence : Int
  action : String
  summary : String
  reasons : List (String × String)
deriving DecidableEq, Repr

/-- A successfully `json.loads`-parsed response body, field by field:
`none` marks an absent key, read with the source's `data.get`
defaults. -/
structure AIResponseData where
  score : Option Int
  confidence : Option Int
  action : Option String
  summary : Option String
  reasons : Option (List (String × String))
deriving Repr

/-- `evaluate_recommendation` (`core/ai_engine.py`).  Parameters model
the external collaborators: `clientConfigured` is `_client() is not
None` (an API key is set and the OpenAI SDK imported); `net` is the
outcome of `client.responses.create(...)` — `Except.error` when the
call raises (service unreachable), `Except.ok raw` with the response
text otherwise; `parse` is `json.loads` (`none` = parse failure).

The source wraps only `json.loads` in `try/except`; the network call
itself is unguarded, so its exception propagates (`Except.error`). -/
def evaluateRecommendation (clientConfigured : Bool)
    (net : Except String String)
    (parse : String → Option AIResponseData) : Except String AIEval :=
  if !clientConfigured then
    Except.ok
      ⟨0, 0, "NEEDS_DATA", "IA no configurada (falta OPENAI_API_KEY).",
        [("error", "missing_openai_api_key")]⟩
  else
    match net with
    | Except.error e => Except.error e
    | Except.ok rawText =>
        let raw := if rawText = "" then "\x7b\x7d" else rawText
        let data := (parse raw).getD ⟨none, none, none, none, none⟩
        Except.ok
          ⟨data.score.getD 0, data.confidence.getD 0,
            data.action.getD "NEEDS_DATA",
            pyTake (data.summary.getD "") 800,
            data.reasons.getD []⟩

/-! ## Simulator trade handler (`sim_detail`, `core/views.py`) -/

/-- A `SimTrade` ticket row. -/
structure SimTradeRec where
  symbol : String
  side : String
  quantity : ℚ
  price : ℚ
  day : Int
deriving DecidableEq, Repr

/-- The mutable state of one `Simulation` together with its
`SimPosition` rows (symbol, quantity, avg price — kept in row-creation
order) and its `SimTrade` ledger. -/
structure SimState where
  virtualCash : ℚ
  currentDay : Int
  positions : List (String × ℚ × ℚ)
  trades : List SimTradeRec
deriving DecidableEq, Repr

/-- Look up the `SimPosition` row for a symbol. -/
def findPos (ps : List (String × ℚ × ℚ)) (sym : String) : Option (ℚ × ℚ) :=
  (ps.find? fun r => r.1 = sym).map fun r => r.2

/-- `SimPosition.objects.get_or_create(...)`: the existing row, or a new
`(quantity=0, avg_price=0)` row appended to the table. -/
def getOrCreatePos (ps : List (String × ℚ × ℚ)) (sym : String) :
    List (String × ℚ × ℚ) × (ℚ × ℚ) :=
  match findPos ps sym with
  | some qa => (ps, qa)
  | none => (ps ++ [(sym, 0, 0)], (0, 0))

/-- `pos.save(...)`: write the row's quantity and avg price in place. -/
def setPos (ps : List (String × ℚ × ℚ)) (sym : String) (q avg : ℚ) :
    List (String × ℚ × ℚ) :=
  ps.map fun r => if r.1 = sym then (r.1, q, avg) else r

/-- Outcome of a trade POST: executed, or one of the two named
rejections (surfaced as `messages.error` + redirect). -/
inductive TradeOutcome
  | executed
  | insufficientCash
  | insufficientPosition
deriving DecidableEq, Repr

/-- The `action == "trade"` branch of `sim_detail` (`core/views.py`).
`symbolRaw.strip().upper()` normalizes the symbol; `get_or_create` runs
before any check, so even a rejected trade may have appended a
zero-quantity position row.  BUY: reject if `virtual_cash < cost`,
else weighted-average restated cost, deduct cash; SELL: reject if held
quantity `< qty`, else reduce (resetting quantity and avg price to zero
at `≤ 0`), add proceeds.  An executed trade appends a `SimTrade`
ticket. -/
def applyTrade (s : SimState) (symbolRaw side : String) (qty px : ℚ) :
    SimState × TradeOutcome :=
  let symbol := pyUpper (pyStrip symbolRaw)
  let gc := getOrCreatePos s.positions symbol
  let s0 : SimState := { s with positions := gc.1 }
  let q := gc.2.1
  let avg := gc.2.2
  if side = "BUY" then
    let cost := qty * px
    if s0.virtualCash < cost then (s0, TradeOutcome.insufficientCash)
    else
      let newQty := q + qty
      let newAvg := if 0 < q ∧ 0 < avg then (q * avg + qty * px) / newQty else px
      let s1 : SimState :=
        { s0 with
          virtualCash := s0.virtualCash - cost
          positions := setPos s0.positions symbol newQty newAvg }
      ({ s1 with
          trades := s1.trades ++ [⟨symbol, side, qty, px, s1.currentDay⟩] },
        TradeOutcome.executed)
  else
    if q < qty then (s0, TradeOutcome.insufficientPosition)
    else
      let proceeds := qty * px
      let q2 := q - qty
      let qa : ℚ × ℚ := if q2 ≤ 0 then (0, 0) else (q2, avg)
      let s1 : SimState :=
        { s0 with
          virtualCash := s0.virtualCash + proceeds
          positions := setPos s0.positions symbol qa.1 qa.2 }
      ({ s1 with
          trades := s1.trades ++ [⟨symbol, side, qty, px, s1.currentDay⟩] },
        TradeOutcome.executed)

/-- A position's observable quantity and average price: `(0, 0)` when no
row exists (a symbol never traded behaves exactly like a freshly created
zero row). -/
def posView (ps : List (String × ℚ × ℚ)) (sym : String) : ℚ × ℚ :=
  (findPos ps sym).getD (0, 0)

/-! ## Deterministic price generator (`price_for`,
`core/price_engine.py`) -/

/-- Python `Decimal.quantize(Decimal("0.000001"), rounding=ROUND_HALF_UP)`:
round to 6 decimal places, ties away from zero. -/
def roundHalfUp6 (x : ℚ) : ℚ :=
  if 0 ≤ x then (⌊x * 1000000 + 1/2⌋ : ℚ) / 1000000
  else -((⌊-x * 1000000 + 1/2⌋ : ℚ) / 1000000)

/-- `price_for` (`core/price_engine.py`).  The external numeric
collaborators are parameters: `hashToUnit` is `_hash_to_unit` (SHA-256
of `"{seed}:{symbol}:{day}"`, leading 32 bits mod 1,000,000 scaled into
`[0,1)`), `expFn` is `math.exp` and `sqrtFn` is `math.sqrt`; float
arithmetic is embedded as exact `ℚ` arithmetic.  The source's own
steps — uppercase-and-strip the symbol *before* hashing, shock
`(u − 0.5)·2`, drift `0.0003`, vol `0.015`, `base · factor` rounded
half-up to 6 decimals, floored at `0.000001` — are embedded exactly. -/
def price_for (hashToUnit : Int → String → Int → ℚ) (expFn sqrtFn : ℚ → ℚ)
    (symbol : String) (day : Int) (seed : Int) (base : ℚ) : ℚ :=
  let sym := pyStrip (pyUpper symbol)
  let u := hashToUnit seed sym day
  let drift : ℚ := 3/10000
  let vol : ℚ := 15/1000
  let shock := (u - 1/2) * 2
  let factor := expFn (drift * day + vol * shock * sqrtFn (max day 1))
  let p := roundHalfUp6 (base * factor)
  if p ≤ 0 then 1/1000000 else p

lemma existsOpen_false_iff (store : RecoStore) (pf : Nat) (code : String) :
    existsOpen store pf code = false ↔
      ∀ r ∈ store, ¬(r.portfolio = pf ∧ r.code = code ∧ r.status = RecoStatus.OPEN) := by
  simp [existsOpen, List.any_eq_false, and_assoc]

lemma createRecoSafe_preserves (store : RecoStore) (pf : Nat) (code : String)
    (sev : Severity) (st : RecoStatus) (h : atMostOneOpen store) :
    atMostOneOpen (createRecoSafe store pf code sev st).1 := by
  unfold createRecoSafe
  by_cases hex : existsOpen store pf code
  · simpa [hex] using h
  · simp only [hex, Bool.false_eq_true, if_false]
    refine List.Pairwise.cons ?_ h
    intro b hb hcontra
    rcases hcontra with ⟨_, hbOpen, hbpf, hbcode⟩
    have := (existsOpen_false_iff store pf code).1 (by simpa using hex) b hb
    exact this ⟨hbpf.symm, hbcode.symm, hbOpen⟩

lemma persistRecos_preserves (pf : Nat) (ds : List RecoDef) :
    ∀ (store : RecoStore) (n : Nat), atMostOneOpen store →
      atMostOneOpen (ds.foldl
        (fun acc d =>
          let r := createRecoSafe acc.1 pf d.code d.severity RecoStatus.OPEN
          (r.1, if r.2 then acc.2 + 1 else acc.2))
        (store, n)).1 := by
  induction ds with
  | nil => intro store n h; simpa using h
  | cons d ds ih =>
      intro store n h
      simp only [List.foldl_cons]
      exact ih _ _ (createRecoSafe_preserves store pf d.code d.severity RecoStatus.OPEN h)

lemma applyRecoOp_preserves (store : RecoStore) (op : RecoOp)
    (h : atMostOneOpen store) : atMostOneOpen (applyRecoOp store op) := by
  cases op with
  | create pf code sev st => exact createRecoSafe_preserves store pf code sev st h
  | generate pf ds => exact persistRecos_preserves pf ds store 0 h

lemma applyRecoOps_preserves (ops : List RecoOp) :
    ∀ (store : RecoStore), atMostOneOpen store →
      atMostOneOpen (applyRecoOps store ops) := by
  induction ops with
  | nil => intro store h; simpa [applyRecoOps] using h
  | cons op ops ih =>
      intro store h
      simpa [applyRecoOps] using ih _ (applyRecoOp_preserves store op h)

/-- C2: every sequence of recommendation-engine operations
(`generate_recommendations` / `_create_reco_safe` calls) preserves the
invariant that, per `(portfolio, code)`, at most one row of the store
is OPEN; and a create attempt for a code that already has an OPEN row
for that portfolio is skipped (store unchanged) and reported as not
created. -/
theorem C2_dedup_invariant (store : RecoStore) (ops : List RecoOp)
    (h : atMostOneOpen store) :
    atMostOneOpen (applyRecoOps store ops) ∧
      ∀ (pf : Nat) (code : String) (sev : Severity) (st : RecoStatus),
        existsOpen store pf code = true →
          createRecoSafe store pf code sev st = (store, false) := by
  refine ⟨applyRecoOps_preserves ops store h, ?_⟩
  intro pf code sev st hex
  simp [createRecoSafe, hex]

/-- Witness for C2 at a concrete store and operation sequence: a
generation batch that retries an already-OPEN code. -/
theorem C2_dedup_invariant_witness :
    atMostOneOpen (applyRecoOps
      [⟨1, "CONC-HIGH-AAPL-1", Severity.HIGH, RecoStatus.OPEN⟩]
      [RecoOp.generate 1 [⟨"CONC-HIGH-AAPL-1", Severity.HIGH⟩,
        ⟨"FX-USD-1", Severity.MED⟩],
       RecoOp.create 1 "FX-USD-1" Severity.MED RecoStatus.OPEN]) ∧
      ∀ (pf : Nat) (code : String) (sev : Severity) (st : RecoStatus),
        existsOpen [⟨1, "CONC-HIGH-AAPL-1", Severity.HIGH, RecoStatus.OPEN⟩] pf code = true →
          createRecoSafe [⟨1, "CONC-HIGH-AAPL-1", Severity.HIGH, RecoStatus.OPEN⟩] pf code sev st =
            ([⟨1, "CONC-HIGH-AAPL-1", Severity.HIGH, RecoStatus.OPEN⟩], false) :=
  C2_dedup_invariant _ _ (by decide)

lemma applyNote_status (rec : RecRecord) (note : String) :
    (applyNote rec note).status = rec.status := by
  unfold applyNote
  by_cases h : pyStrip note = "" <;> simp [h]

/-- C1: with AI governance required and an AI credential configured,
an accept request on an OPEN recommendation is (a) rejected with the
record completely unchanged — still OPEN — when `(ai_action or
"").upper() != "ENTER"` or the AI score is null or below the configured
minimum and the manual-override flag is off; (b) allowed through to
ACCEPTED when the action is ENTER and the score equals the minimum
exactly (inclusive boundary); (c) allowed through to ACCEPTED whenever
the manual-override flag is set. -/
theorem C1_governance_gate (cfg : GovConfig) (rec : RecRecord) (note : String)
    (hgov : cfg.aiGovernanceRequired = true) (hkey : cfg.openaiApiKey ≠ "")
    (hopen : rec.status = RecoStatus.OPEN) :
    ((pyUpper rec.aiAction ≠ "ENTER" ∨ rec.aiScore = none ∨
        (∃ sc, rec.aiScore = some sc ∧ sc < cfg.aiMinScore)) →
      cfg.aiAllowManualOverride = false →
      lifecycleStep cfg rec LifecycleAction.accept note = rec ∧
        (lifecycleStep cfg rec LifecycleAction.accept note).status = RecoStatus.OPEN) ∧
    (pyUpper rec.aiAction = "ENTER" → rec.aiScore = some cfg.aiMinScore →
      (lifecycleStep cfg rec LifecycleAction.accept note).status = RecoStatus.ACCEPTED) ∧
    (cfg.aiAllowManualOverride = true →
      (lifecycleStep cfg rec LifecycleAction.accept note).status = RecoStatus.ACCEPTED) := by
  have hkey' : (cfg.openaiApiKey != "") = true := by
    simpa [bne_iff_ne] using hkey
  refine ⟨?_, ?_, ?_⟩
  · intro hbad hov
    have hblocked : govBlocked cfg rec = true := by
      unfold govBlocked
      simp only [hgov, hkey', Bool.and_self, if_true, hov, Bool.not_false,
        Bool.and_true]
      rcases hbad with hact | hnone | ⟨sc, hsc, hlt⟩
      · simp [hact]
      · simp [hnone]
      · simp [hsc, not_le.mpr hlt]
    constructor
    · simp [lifecycleStep, hblocked]
    · simp [lifecycleStep, hblocked, hopen]
  · intro hact hsc
    have hblocked : govBlocked cfg rec = false := by
      unfold govBlocked
      simp [hgov, hkey', hact, hsc]
    simp [lifecycleStep, hblocked, applyNote_status]
  · intro hov
    have hblocked : govBlocked cfg rec = false := by
      unfold govBlocked
      simp [hov]
    simp [lifecycleStep, hblocked, applyNote_status]

/-- Witness for C1: governance on, key set, minimum score 70.  A HOLD
record with no score is blocked unchanged; an ENTER record with score
exactly 70 is accepted; with the override flag the HOLD record is
accepted too. -/
theorem C1_governance_gate_witness :
    (lifecycleStep ⟨true, "sk-test", 70, false⟩
        ⟨RecoStatus.OPEN, "", "HOLD", none⟩ LifecycleAction.accept "" =
      ⟨RecoStatus.OPEN, "", "HOLD", none⟩) ∧
    ((lifecycleStep ⟨true, "sk-test", 70, false⟩
        ⟨RecoStatus.OPEN, "", "ENTER", some 70⟩ LifecycleAction.accept "").status =
      RecoStatus.ACCEPTED) ∧
    ((lifecycleStep ⟨true, "sk-test", 70, true⟩
        ⟨RecoStatus.OPEN, "", "HOLD", none⟩ LifecycleAction.accept "").status =
      RecoStatus.ACCEPTED) := by
  refine ⟨?_, ?_, ?_⟩
  · exact ((C1_governance_gate ⟨true, "sk-test", 70, false⟩
      ⟨RecoStatus.OPEN, "", "HOLD", none⟩ "" rfl (by decide) rfl).1
      (Or.inr (Or.inl rfl)) rfl).1
  · exact (C1_governance_gate ⟨true, "sk-test", 70, false⟩
      ⟨RecoStatus.OPEN, "", "ENTER", some 70⟩ "" rfl (by decide) rfl).2.1
      (by decide) rfl
  · exact (C1_governance_gate ⟨true, "sk-test", 70, true⟩
      ⟨RecoStatus.OPEN, "", "HOLD", none⟩ "" rfl (by decide) rfl).2.2 rfl

/-- C8 counterexample: the lifecycle handlers never check the current
status, so a record can move directly from ACCEPTED to IGNORED without
being reopened.  With governance not in force (no API key configured),
one ignore request on an ACCEPTED record yields IGNORED in a single
step — contradicting the claim that REOPEN is the only transition ever
performed on an ACCEPTED record. -/
theorem C8_counterexample :
    (⟨RecoStatus.ACCEPTED, "", "HOLD", none⟩ : RecRecord).status =
        RecoStatus.ACCEPTED ∧
    (lifecycleStep ⟨true, "", 70, false⟩ ⟨RecoStatus.ACCEPTED, "", "HOLD", none⟩
        LifecycleAction.ignore "").status = RecoStatus.IGNORED := by
  decide

/-- C8 amended: the lifecycle handlers apply the requested transition
regardless of the record's current status — from ACCEPTED or IGNORED,
an ignore request moves the record directly to IGNORED and an accept
request that passes the governance gate moves it directly to ACCEPTED —
but reopen is the only operation that ever returns a closed
(non-OPEN) record to OPEN. -/
theorem C8_reopen_only_path_to_open (cfg : GovConfig) (rec : RecRecord)
    (a : LifecycleAction) (note : String)
    (hclosed : rec.status ≠ RecoStatus.OPEN) :
    ((lifecycleStep cfg rec a note).status = RecoStatus.OPEN →
      a = LifecycleAction.reopen) ∧
    (a = LifecycleAction.ignore →
      (lifecycleStep cfg rec a note).status = RecoStatus.IGNORED) ∧
    (a = LifecycleAction.accept → govBlocked cfg rec = false →
      (lifecycleStep cfg rec a note).status = RecoStatus.ACCEPTED) := by
  refine ⟨?_, ?_, ?_⟩
  · intro hres
    cases a with
    | accept =>
        exfalso
        by_cases hb : govBlocked cfg rec = true
        · rw [lifecycleStep, if_pos hb] at hres
          exact hclosed hres
        · rw [lifecycleStep, if_neg hb, applyNote_status] at hres
          cases hres
    | ignore =>
        exfalso
        rw [lifecycleStep, applyNote_status] at hres
        cases hres
    | reopen => rfl
  · intro ha; subst ha
    rw [lifecycleStep, applyNote_status]
  · intro ha hb; subst ha
    rw [lifecycleStep, if_neg (by simp [hb]), applyNote_status]

/-- Witness for the amended C8 at a concrete closed record: with the
gate not in force, an accept on an IGNORED record lands directly on
ACCEPTED, and an ignore on an ACCEPTED record lands directly on
IGNORED. -/
theorem C8_reopen_only_path_to_open_witness :
    ((lifecycleStep ⟨true, "", 70, false⟩ ⟨RecoStatus.IGNORED, "", "HOLD", none⟩
        LifecycleAction.accept "").status = RecoStatus.ACCEPTED) ∧
    ((lifecycleStep ⟨true, "", 70, false⟩ ⟨RecoStatus.ACCEPTED, "", "HOLD", none⟩
        LifecycleAction.ignore "").status = RecoStatus.IGNORED) := by
  constructor
  · exact (C8_reopen_only_path_to_open ⟨true, "", 70, false⟩
      ⟨RecoStatus.IGNORED, "", "HOLD", none⟩ LifecycleAction.accept ""
      (by decide)).2.2 rfl (by decide)
  · exact (C8_reopen_only_path_to_open ⟨true, "", 70, false⟩
      ⟨RecoStatus.ACCEPTED, "", "HOLD", none⟩ LifecycleAction.ignore ""
      (by decide)).2.1 rfl

/-- C4 counterexample: with a client configured, the
`client.responses.create(...)` network call of
`evaluate_recommendation` is not wrapped in any `try/except`, so when
the external service is unreachable the exception propagates to the
caller instead of converging to the NEEDS_DATA fallback. -/
theorem C4_counterexample :
    evaluateRecommendation true (Except.error "service unreachable")
        (fun _ => none) =
      Except.error "service unreachable" := by
  rfl

/-- C4 amended: with no configured client the adapter returns the
NEEDS_DATA fallback (score 0, confidence 0) whose reasons payload names
the missing credential; with a client configured and a malformed
response body it returns the same-shaped NEEDS_DATA / 0 / 0 result but
with an *empty* reasons payload; and when the external call itself
raises (service unreachable) the exception propagates — the operation
can raise. -/
theorem C4_fallback_behaviour (net : Except String String)
    (parse : String → Option AIResponseData) :
    (evaluateRecommendation false net parse =
      Except.ok ⟨0, 0, "NEEDS_DATA", "IA no configurada (falta OPENAI_API_KEY).",
        [("error", "missing_openai_api_key")]⟩) ∧
    (∀ raw, net = Except.ok raw →
      parse (if raw = "" then "\x7b\x7d" else raw) = none →
      evaluateRecommendation true net parse =
        Except.ok ⟨0, 0, "NEEDS_DATA", "", []⟩) ∧
    (∀ e, net = Except.error e →
      evaluateRecommendation true net parse = Except.error e) := by
  refine ⟨rfl, ?_, ?_⟩
  · intro raw hnet hparse
    subst hnet
    simp only [evaluateRecommendation, hparse, Bool.not_true, Option.getD,
      if_false, Bool.false_eq_true]
    rfl
  · intro e hnet
    subst hnet
    rfl

/-- Witness for C4 at concrete inputs: unconfigured client, and a
configured client receiving an unparseable body. -/
theorem C4_fallback_behaviour_witness :
    (evaluateRecommendation false (Except.ok "\x7b\x7d") (fun _ => none) =
      Except.ok ⟨0, 0, "NEEDS_DATA", "IA no configurada (falta OPENAI_API_KEY).",
        [("error", "missing_openai_api_key")]⟩) ∧
    (evaluateRecommendation true (Except.ok "not json") (fun _ => none) =
      Except.ok ⟨0, 0, "NEEDS_DATA", "", []⟩) :=
  ⟨(C4_fallback_behaviour (Except.ok "\x7b\x7d") (fun _ => none)).1,
   (C4_fallback_behaviour (Except.ok "not json") (fun _ => none)).2.1
     "not json" rfl rfl⟩

lemma posView_append_zero (ps : List (String × ℚ × ℚ)) (sym sym' : String) :
    posView (ps ++ [(sym, 0, 0)]) sym' = posView ps sym' := by
  unfold posView findPos
  rw [List.find?_append]
  cases hf : ps.find? fun r => decide (r.1 = sym') with
  | some r => simp
  | none =>
      by_cases h : sym = sym' <;>
        simp [List.find?, h, Option.or]

lemma findPos_append_none (ps : List (String × ℚ × ℚ)) (sym : String) (z : ℚ × ℚ)
    (h : findPos ps sym = none) :
    findPos (ps ++ [(sym, z.1, z.2)]) sym = some z := by
  unfold findPos at h ⊢
  rw [List.find?_append]
  have hf : (ps.find? fun r => decide (r.1 = sym)) = none := by
    cases hff : ps.find? fun r => decide (r.1 = sym) with
    | none => rfl
    | some r => rw [hff] at h; simp at h
  rw [hf]
  simp [List.find?, Option.or]

lemma findPos_setPos_isSome (ps : List (String × ℚ × ℚ)) (sym : String)
    (q a : ℚ) (h : (findPos ps sym).isSome) :
    findPos (setPos ps sym q a) sym = some (q, a) := by
  induction ps with
  | nil => simp [findPos] at h
  | cons r ps ih =>
      by_cases hr : r.1 = sym
      · simp [setPos, findPos, List.find?, hr]
      · have h' : (findPos ps sym).isSome := by
          simpa [findPos, List.find?, hr] using h
        simpa [setPos, findPos, List.find?, hr] using ih h'

/-- The insufficient-funds branch of the BUY handler, as an equation:
the outcome is the rejection, cash and the trade ledger are untouched,
and the only possible change is the `get_or_create` of the position
row. -/
lemma applyTrade_buy_reject (s : SimState) (symRaw : String) (qty px : ℚ)
    (hcash : s.virtualCash < qty * px) :
    applyTrade s symRaw "BUY" qty px =
      ({ s with
          positions := (getOrCreatePos s.positions (pyUpper (pyStrip symRaw))).1 },
        TradeOutcome.insufficientCash) := by
  unfold applyTrade
  simp only [if_pos rfl]
  rw [if_pos hcash]
  simp

/-- C5: a BUY whose cost exceeds the simulation's virtual cash is
rejected with the insufficient-funds outcome, and cash, the trade
ledger, the simulated day, and every position's observable quantity and
average price are unchanged. -/
theorem C5_insufficient_funds (s : SimState) (symRaw : String) (qty px : ℚ)
    (hcash : s.virtualCash < qty * px) :
    (applyTrade s symRaw "BUY" qty px).2 = TradeOutcome.insufficientCash ∧
    (applyTrade s symRaw "BUY" qty px).1.virtualCash = s.virtualCash ∧
    (applyTrade s symRaw "BUY" qty px).1.trades = s.trades ∧
    (applyTrade s symRaw "BUY" qty px).1.currentDay = s.currentDay ∧
    ∀ sym, posView (applyTrade s symRaw "BUY" qty px).1.positions sym =
      posView s.positions sym := by
  rw [applyTrade_buy_reject s symRaw qty px hcash]
  refine ⟨rfl, rfl, rfl, rfl, ?_⟩
  intro sym
  unfold getOrCreatePos
  cases hf : findPos s.positions (pyUpper (pyStrip symRaw)) with
  | some qa => rfl
  | none => exact posView_append_zero s.positions (pyUpper (pyStrip symRaw)) sym

/-- Witness for C5: buying 100 units at 3 with only 200 of cash. -/
theorem C5_insufficient_funds_witness :
    (applyTrade ⟨200, 0, [("MSFT", 5, 10)], []⟩ "aapl" "BUY" 100 3).2 =
        TradeOutcome.insufficientCash ∧
    (applyTrade ⟨200, 0, [("MSFT", 5, 10)], []⟩ "aapl" "BUY" 100 3).1.virtualCash = 200 ∧
    (applyTrade ⟨200, 0, [("MSFT", 5, 10)], []⟩ "aapl" "BUY" 100 3).1.trades = [] ∧
    posView (applyTrade ⟨200, 0, [("MSFT", 5, 10)], []⟩ "aapl" "BUY" 100 3).1.positions
        "MSFT" = posView [("MSFT", 5, 10)] "MSFT" := by
  have h := C5_insufficient_funds ⟨200, 0, [("MSFT", 5, 10)], []⟩ "aapl" 100 3
    (by norm_num)
  exact ⟨h.1, h.2.1, h.2.2.1, h.2.2.2.2 "MSFT"⟩

/-- C10: the position row is created by `get_or_create` *before* the
funds check, so a rejected BUY on a symbol with no prior position
leaves cash and the ledger unchanged but appends a zero-quantity,
zero-average `SimPosition` row for the symbol. -/
theorem C10_reject_creates_zero_row (s : SimState) (symRaw : String) (qty px : ℚ)
    (hfresh : findPos s.positions (pyUpper (pyStrip symRaw)) = none)
    (hcash : s.virtualCash < qty * px) :
    (applyTrade s symRaw "BUY" qty px).2 = TradeOutcome.insufficientCash ∧
    (applyTrade s symRaw "BUY" qty px).1.virtualCash = s.virtualCash ∧
    (applyTrade s symRaw "BUY" qty px).1.trades = s.trades ∧
    (applyTrade s symRaw "BUY" qty px).1.positions =
      s.positions ++ [(pyUpper (pyStrip symRaw), 0, 0)] := by
  rw [applyTrade_buy_reject s symRaw qty px hcash]
  refine ⟨rfl, rfl, rfl, ?_⟩
  unfold getOrCreatePos
  rw [hfresh]

/-- Witness for C10: the rejected BUY of 100 units at 3 against 200 of
cash creates the zero row for AAPL. -/
theorem C10_reject_creates_zero_row_witness :
    (applyTrade ⟨200, 0, [("MSFT", 5, 10)], []⟩ "aapl" "BUY" 100 3).1.positions =
      [("MSFT", 5, 10)] ++ [("AAPL", 0, 0)] := by
  have h := C10_reject_creates_zero_row ⟨200, 0, [("MSFT", 5, 10)], []⟩ "aapl" 100 3
    (by decide) (by norm_num)
  exact h.2.2.2

/-- The BUY handler on a fresh symbol with sufficient cash, as an
equation: first position, so the average price is set to the trade
price, the quantity to `0 + qty`, cash is debited, a ticket appended. -/
lemma applyTrade_buy_fresh (s : SimState) (symRaw : String) (qty px : ℚ)
    (hfresh : findPos s.positions (pyUpper (pyStrip symRaw)) = none)
    (hcash : qty * px ≤ s.virtualCash) :
    applyTrade s symRaw "BUY" qty px =
      ({ virtualCash := s.virtualCash - qty * px
         currentDay := s.currentDay
         positions := setPos (s.positions ++ [(pyUpper (pyStrip symRaw), 0, 0)])
           (pyUpper (pyStrip symRaw)) (0 + qty) px
         trades := s.trades ++
           [⟨pyUpper (pyStrip symRaw), "BUY", qty, px, s.currentDay⟩] },
        TradeOutcome.executed) := by
  unfold applyTrade
  simp only [if_pos rfl]
  unfold getOrCreatePos
  rw [hfresh]
  rw [if_neg (not_lt.mpr hcash)]
  simp

/-- C6: with no prior position and sufficient cash, a BUY of `q` at `p`
followed by a SELL of `q` at `p` executes both legs, restores the
virtual cash exactly, and leaves the position at quantity 0 with its
average price reset to 0. -/
theorem C6_round_trip (s : SimState) (symRaw : String) (qty px : ℚ)
    (hfresh : findPos s.positions (pyUpper (pyStrip symRaw)) = none)
    (hcash : qty * px ≤ s.virtualCash) :
    (applyTrade s symRaw "BUY" qty px).2 = TradeOutcome.executed ∧
    (applyTrade (applyTrade s symRaw "BUY" qty px).1 symRaw "SELL" qty px).2 =
      TradeOutcome.executed ∧
    (applyTrade (applyTrade s symRaw "BUY" qty px).1 symRaw "SELL" qty px).1.virtualCash =
      s.virtualCash ∧
    posView
      (applyTrade (applyTrade s symRaw "BUY" qty px).1 symRaw "SELL" qty px).1.positions
      (pyUpper (pyStrip symRaw)) = (0, 0) := by
  rw [applyTrade_buy_fresh s symRaw qty px hfresh hcash]
  have hpos1 : findPos
      (setPos (s.positions ++ [(pyUpper (pyStrip symRaw), 0, 0)])
        (pyUpper (pyStrip symRaw)) (0 + qty) px)
      (pyUpper (pyStrip symRaw)) = some (0 + qty, px) := by
    apply findPos_setPos_isSome
    rw [findPos_append_none s.positions (pyUpper (pyStrip symRaw)) (0, 0) hfresh]
    rfl
  refine ⟨rfl, ?_, ?_, ?_⟩
  · unfold applyTrade
    simp only [if_neg (by decide : ¬("SELL" : String) = "BUY")]
    unfold getOrCreatePos
    rw [hpos1]
    simp
  · unfold applyTrade
    simp only [if_neg (by decide : ¬("SELL" : String) = "BUY")]
    unfold getOrCreatePos
    rw [hpos1]
    simp
  · unfold applyTrade
    simp only [if_neg (by decide : ¬("SELL" : String) = "BUY")]
    unfold getOrCreatePos
    rw [hpos1]
    have hlt : ¬((0 : ℚ) + qty < qty) := by simp
    rw [if_neg hlt]
    have hq2 : (0 : ℚ) + qty - qty ≤ 0 := by simp
    rw [if_pos hq2]
    unfold posView
    rw [findPos_setPos_isSome]
    · rfl
    · rw [hpos1]; rfl

/-- Witness for C6: cash 1000, BUY then SELL 4 units of AAPL at 25. -/
theorem C6_round_trip_witness :
    (applyTrade (applyTrade ⟨1000, 0, [], []⟩ "aapl" "BUY" 4 25).1
        "aapl" "SELL" 4 25).1.virtualCash = 1000 ∧
    posView (applyTrade (applyTrade ⟨1000, 0, [], []⟩ "aapl" "BUY" 4 25).1
        "aapl" "SELL" 4 25).1.positions "AAPL" = (0, 0) := by
  have h := C6_round_trip ⟨1000, 0, [], []⟩ "aapl" 4 25 (by decide) (by norm_num)
  exact ⟨h.2.2.1, h.2.2.2⟩

lemma holdings_isEmpty_false_of_total_pos (holdings : List (String × ℚ))
    (prices : String → Option PriceInfo) (h : 0 < totalOf holdings prices) :
    holdings.isEmpty = false := by
  cases holdings with
  | nil => simp [totalOf, valuesOf] at h
  | cons a l => rfl

lemma concFindings_append (l₁ l₂ : List Finding) :
    concFindings (l₁ ++ l₂) = concFindings l₁ ++ concFindings l₂ := by
  simp [concFindings]

lemma concFindings_fxRecos (pf : Nat) (baseCurrency : String)
    (holdings : List (String × ℚ)) (prices : String → Option PriceInfo) :
    concFindings (fxRecos pf baseCurrency holdings prices) = [] := by
  simp only [fxRecos]
  split_ifs <;> rfl

lemma concFindings_staleRecos (pf : Nat) (today : Int)
    (holdings : List (String × ℚ)) (prices : String → Option PriceInfo) :
    concFindings (staleRecos pf today holdings prices) = [] := by
  simp only [staleRecos]
  split_ifs <;> rfl

lemma concFindings_smallRecos (pf : Nat) (holdings : List (String × ℚ))
    (prices : String → Option PriceInfo) :
    concFindings (smallRecos pf holdings prices) = [] := by
  simp only [smallRecos]
  split_ifs <;> rfl

/-- Under a positive valued total, the concentration findings of a whole
`build_recos` run are exactly those of the concentration rule: no other
rule site produces one. -/
lemma concFindings_buildRecos (pf : Nat) (baseCurrency : String) (today : Int)
    (txs : List Tx) (prices : String → Option PriceInfo)
    (htotal : 0 < totalOf (holdingsSnapshot txs).holdings prices) :
    concFindings (buildRecos pf baseCurrency today txs prices) =
      concFindings (concRecos pf (holdingsSnapshot txs).holdings prices) := by
  have hne := holdings_isEmpty_false_of_total_pos _ prices htotal
  simp only [buildRecos, hne, Bool.false_eq_true, and_false, if_false,
    if_neg (not_le.mpr htotal), concFindings_append, concFindings_fxRecos,
    concFindings_staleRecos, concFindings_smallRecos]
  cases hneg : (holdingsSnapshot txs).negative <;>
    split_ifs <;> simp [concFindings]

/-- C3: whenever the portfolio can be valued (`total > 0`), the
concentration rule is driven by the maximal per-symbol weight `top_w`:
`top_w ≥ 0.55` emits exactly one HIGH concentration finding,
`0.35 ≤ top_w < 0.55` exactly one MED concentration finding,
`top_w < 0.35` none — both thresholds inclusive — and a run never emits
more than one concentration finding. -/
theorem C3_concentration_thresholds (pf : Nat) (baseCurrency : String)
    (today : Int) (txs : List Tx) (prices : String → Option PriceInfo)
    (htotal : 0 < totalOf (holdingsSnapshot txs).holdings prices) :
    (55/100 ≤ (maxByValue (weightsOf (holdingsSnapshot txs).holdings prices)).2 →
      concFindings (buildRecos pf baseCurrency today txs prices) =
        [⟨s!"CONC-HIGH-{(maxByValue (weightsOf (holdingsSnapshot txs).holdings prices)).1}-{pf}",
          Severity.HIGH, RuleKind.concHigh⟩]) ∧
    ((maxByValue (weightsOf (holdingsSnapshot txs).holdings prices)).2 < 55/100 →
      35/100 ≤ (maxByValue (weightsOf (holdingsSnapshot txs).holdings prices)).2 →
      concFindings (buildRecos pf baseCurrency today txs prices) =
        [⟨s!"CONC-MED-{(maxByValue (weightsOf (holdingsSnapshot txs).holdings prices)).1}-{pf}",
          Severity.MED, RuleKind.concMed⟩]) ∧
    ((maxByValue (weightsOf (holdingsSnapshot txs).holdings prices)).2 < 35/100 →
      concFindings (buildRecos pf baseCurrency today txs prices) = []) ∧
    (concFindings (buildRecos pf baseCurrency today txs prices)).length ≤ 1 := by
  rw [concFindings_buildRecos pf baseCurrency today txs prices htotal]
  refine ⟨?_, ?_, ?_, ?_⟩
  · intro h
    simp only [concRecos]
    rw [if_pos h]
    rfl
  · intro hlt h
    simp only [concRecos]
    rw [if_neg (not_le.mpr hlt), if_pos h]
    rfl
  · intro hlt
    simp only [concRecos]
    rw [if_neg (not_le.mpr (hlt.trans_le (by norm_num))),
      if_neg (not_le.mpr hlt)]
    rfl
  · simp only [concRecos]
    split_ifs <;> simp [concFindings]

/-- Witness for C3: two holdings worth 55 and 45 — top weight exactly
0.55 — produce exactly the single HIGH concentration finding. -/
theorem C3_concentration_thresholds_witness :
    concFindings (buildRecos 1 "" 0 txsPair pricesPair) =
      [⟨"CONC-HIGH-AAPL-1", Severity.HIGH, RuleKind.concHigh⟩] := by
  have h1 : pyStrip (pyUpper "AAPL") = "AAPL" := by decide
  have h2 : pyStrip (pyUpper "MSFT") = "MSFT" := by decide
  have hsnap : holdingsSnapshot txsPair = ⟨[("AAPL", 55), ("MSFT", 45)], 2, []⟩ := by
    simp [holdingsSnapshot, holdingsFold, updateAssoc, txsPair, h1, h2]
    norm_num
  have hhold : (holdingsSnapshot txsPair).holdings = [("AAPL", 55), ("MSFT", 45)] := by
    rw [hsnap]
  have htot : totalOf [("AAPL", (55:ℚ)), ("MSFT", 45)] pricesPair = 100 := by
    simp [totalOf, valuesOf, pricesPair]
    norm_num
  have htop : maxByValue (weightsOf [("AAPL", (55:ℚ)), ("MSFT", 45)] pricesPair) =
      ("AAPL", 11/20) := by
    simp [weightsOf, valuesOf, maxByValue, htot, pricesPair]
    norm_num
  have h := (C3_concentration_thresholds 1 "" 0 txsPair pricesPair
    (by rw [hhold, htot]; norm_num)).1
    (by rw [hhold, htop]; norm_num)
  rw [hhold, htop] at h
  exact h.trans (by decide)

/-- C7: a portfolio with positive holdings whose valued total is zero or
negative yields exactly one MED "cannot value" finding, and none of the
post-valuation rules (concentration, currency exposure, stale prices,
fragmentation) runs. -/
theorem C7_cannot_value_stops_rules (pf : Nat) (baseCurrency : String)
    (today : Int) (txs : List Tx) (prices : String → Option PriceInfo)
    (hne : (holdingsSnapshot txs).holdings ≠ [])
    (htotal : totalOf (holdingsSnapshot txs).holdings prices ≤ 0) :
    allMissingFindings (buildRecos pf baseCurrency today txs prices) =
      [⟨s!"PRICES-ALLMISSING-{pf}", Severity.MED, RuleKind.pricesAllMissing⟩] ∧
    lateFindings (buildRecos pf baseCurrency today txs prices) = [] := by
  have hne' : (holdingsSnapshot txs).holdings.isEmpty = false := by
    cases h : (holdingsSnapshot txs).holdings with
    | nil => exact absurd h hne
    | cons a l => rfl
  simp only [buildRecos, hne', Bool.false_eq_true, and_false, if_false,
    if_pos htotal]
  constructor
  · simp only [allMissingFindings, List.filter_append]
    cases hneg : (holdingsSnapshot txs).negative <;>
      split_ifs <;> simp [List.filter]
  · simp only [lateFindings, List.filter_append]
    cases hneg : (holdingsSnapshot txs).negative <;>
      split_ifs <;> simp [List.filter]

/-- Witness for C7: one held but unpriced symbol — total 0 — yields the
single MED "cannot value" finding and no post-valuation findings. -/
theorem C7_cannot_value_stops_rules_witness :
    allMissingFindings (buildRecos 1 "ARS" 0 txsSingle pricesNone) =
      [⟨"PRICES-ALLMISSING-1", Severity.MED, RuleKind.pricesAllMissing⟩] ∧
    lateFindings (buildRecos 1 "ARS" 0 txsSingle pricesNone) = [] := by
  have h1 : pyStrip (pyUpper "AAPL") = "AAPL" := by decide
  have hsnap : holdingsSnapshot txsSingle = ⟨[("AAPL", 5)], 1, []⟩ := by
    simp [holdingsSnapshot, holdingsFold, updateAssoc, txsSingle, h1]
    norm_num
  have hhold : (holdingsSnapshot txsSingle).holdings = [("AAPL", 5)] := by
    rw [hsnap]
  have h := C7_cannot_value_stops_rules 1 "ARS" 0 txsSingle pricesNone
    (by rw [hhold]; simp)
    (by rw [hhold]; simp [totalOf, valuesOf, pricesNone])
  exact ⟨h.1.trans (by decide), h.2⟩

/-- C9: `price_for` is a pure function of its arguments — the embedding
is a function, so two calls at identical arguments are identical — and
because the symbol is uppercased and stripped before hashing, symbols
that differ only in letter case produce the identical price, for every
behaviour of the external hash (`hashlib.sha256`), `math.exp` and
`math.sqrt` collaborators. -/
theorem C9_price_for_deterministic (hashToUnit : Int → String → Int → ℚ)
    (expFn sqrtFn : ℚ → ℚ) (sym1 sym2 : String) (day seed : Int) (base : ℚ)
    (hcase : pyUpper sym1 = pyUpper sym2) :
    price_for hashToUnit expFn sqrtFn sym1 day seed base =
        price_for hashToUnit expFn sqrtFn sym1 day seed base ∧
    price_for hashToUnit expFn sqrtFn sym1 day seed base =
        price_for hashToUnit expFn sqrtFn sym2 day seed base := by
  refine ⟨rfl, ?_⟩
  unfold price_for
  rw [hcase]

/-- Witness for C9 at concrete collaborators and the spec's own
example pair "aapl" / "AAPL". -/
theorem C9_price_for_deterministic_witness :
    price_for (fun _ _ _ => 0) id id "aapl" 3 12345 100 =
      price_for (fun _ _ _ => 0) id id "AAPL" 3 12345 100 :=
  (C9_price_for_deterministic (fun _ _ _ => 0) id id "aapl" "AAPL" 3 12345 100
    (by decide)).2

end InvPanel
